import Mathlib

/-!
Verification development for the product-identifier extraction engine of
`excel.py`.  Text is modelled as `List Char`; the Python functions
`_clean_caps`, `_find_parenthetical_id`, `_find_hp_monitor_id`,
`_find_dell_model_like`, `_phrase_before_first_comma`,
`_generic_from_description` and `extract_product_id_for_row` are embedded as
executable Lean functions.  Python operations that can raise exceptions
(dictionary subscription, indexing into the key list) are modelled in the
`Except` monad so that the absence of runtime errors is a provable statement.
-/

namespace ExcelAuto

/-- Python `\s` (ASCII range): space, tab, newline, vertical tab, form feed,
carriage return. -/
def pyIsSpace (c : Char) : Bool :=
  decide (c.toNat = 32 ∨ c.toNat = 9 ∨ c.toNat = 10 ∨ c.toNat = 11 ∨
          c.toNat = 12 ∨ c.toNat = 13)

/-- Character class `[A-Z0-9]`. -/
def isAlnumUp (c : Char) : Bool :=
  decide ((65 ≤ c.toNat ∧ c.toNat ≤ 90) ∨ (48 ≤ c.toNat ∧ c.toNat ≤ 57))

/-- Character class `[0-9]` (Python `str.isdigit` / `\d`, ASCII). -/
def isDigitChar (c : Char) : Bool :=
  decide (48 ≤ c.toNat ∧ c.toNat ≤ 57)

/-- Character class `[A-Z]`. -/
def isUpperAlpha (c : Char) : Bool :=
  decide (65 ≤ c.toNat ∧ c.toNat ≤ 90)

/-- Regex word character `\w` (ASCII): letters, digits, underscore. -/
def isWordChar (c : Char) : Bool :=
  decide ((65 ≤ c.toNat ∧ c.toNat ≤ 90) ∨ (97 ≤ c.toNat ∧ c.toNat ≤ 122) ∨
          (48 ≤ c.toNat ∧ c.toNat ≤ 57) ∨ c.toNat = 95)

/-- Python `str.upper` on a single character (ASCII letters). -/
def pyUpperChar (c : Char) : Char :=
  if 97 ≤ c.toNat ∧ c.toNat ≤ 122 then Char.ofNat (c.toNat - 32) else c

/-- `re.sub(r"\s+", " ", s)`: replace every maximal whitespace run by a single
space.  The Boolean flag records whether the previous character belonged to a
whitespace run already emitted. -/
def collapseWSAux : Bool → List Char → List Char
  | _, [] => []
  | prevSpace, c :: rest =>
    if pyIsSpace c then
      if prevSpace then collapseWSAux true rest
      else ' ' :: collapseWSAux true rest
    else c :: collapseWSAux false rest

def collapseWS (l : List Char) : List Char := collapseWSAux false l

/-- Right-trim of whitespace (the trailing half of Python `str.strip`). -/
def stripRight : List Char → List Char
  | [] => []
  | c :: rest =>
    match stripRight rest with
    | [] => if pyIsSpace c then [] else [c]
    | r => c :: r

/-- Python `str.strip()`: remove leading and trailing whitespace. -/
def pyStrip (l : List Char) : List Char :=
  stripRight (l.dropWhile pyIsSpace)

/-- Python `str.upper()` on a string. -/
def pyUpper (l : List Char) : List Char := l.map pyUpperChar

/-- `_clean_caps(s)`: `re.sub(r"\s+", " ", (s or "")).strip().upper()`. -/
def _clean_caps (l : List Char) : List Char :=
  pyUpper (pyStrip (collapseWS l))

/-- The `BANNED_TOKENS` set of `excel.py` (a Python set literal; `STANDARD`
appears twice in the source text). -/
def bannedTokens : List (List Char) :=
  ["MONITOR".toList, "DISPLAY".toList, "WINDOWS".toList, "SERVER".toList,
   "STANDARD".toList, "MICROSOFT".toList, "ASUS".toList, "LENOVO".toList,
   "HPE".toList, "HP".toList,
   "INTEL".toList, "NVIDIA".toList, "RYZEN".toList, "GEFORCE".toList,
   "CORE".toList, "DDR".toList, "DDR4".toList, "DDR5".toList, "UHD".toList,
   "FHD".toList, "IPS".toList, "VA".toList, "TN".toList,
   "DOS".toList, "ENG".toList, "ENGLISH".toList, "NEW".toList, "AIO".toList,
   "PCS".toList, "WORKSTATION".toList, "NOTEBOOK".toList, "LAPTOP".toList,
   "WUE".toList, "G5".toList, "G9".toList,
   "BACKLIT".toList, "KEYBOARD".toList, "MOUSE".toList, "WIFI".toList,
   "BT".toList, "BLUETOOTH".toList, "PCIe".toList, "NVME".toList,
   "SSD".toList, "HDD".toList, "GB".toList, "TB".toList,
   "INCH".toList, "WARRANTY".toList, "YRS".toList, "3YRS".toList,
   "1YW".toList, "AX".toList, "TNR".toList, "ID".toList, "FLEX".toList,
   "SLOT".toList, "HOT".toList, "PLUG".toList, "LOW".toList,
   "HALOGEN".toList, "KIT".toList, "POWER".toList, "SUPPLY".toList,
   "TITANIUM".toList, "PRO".toList, "HOME".toList, "BUSINESS".toList,
   "STANDARD".toList, "LOQ".toList]

/-- Split at the first `')'`: returns the characters strictly before it and
the remainder strictly after it, or `none` when no `')'` occurs. -/
def splitAtClose : List Char → Option (List Char × List Char)
  | [] => none
  | c :: rest =>
    if c = ')' then some ([], rest)
    else (splitAtClose rest).map (fun pr => (c :: pr.1, pr.2))

/-- `re.search(r"\(([^\)]+)\)", s)`: the leftmost `'('` that is followed by at
least one non-`')'` character and then a `')'`; yields the group between them.
A failed start position advances by one character, exactly as the regex engine
does. -/
def parenGroup : List Char → Option (List Char)
  | [] => none
  | c :: rest =>
    if c = '(' then
      match splitAtClose rest with
      | some (content, _) => if content.isEmpty then parenGroup rest else some content
      | none => parenGroup rest
    else parenGroup rest

/-- Character class `[A-Z0-9#\-]` used to clean a parenthetical candidate. -/
def isParenKeep (c : Char) : Bool := isAlnumUp c || decide (c = '#') || decide (c = '-')

/-- `_find_parenthetical_id`: the candidate is the group cleaned to
`[A-Z0-9#\-]`; it is rejected when it has fewer than five `[A-Z0-9]`
characters. -/
def _find_parenthetical_id (text : List Char) : Option (List Char) :=
  match parenGroup (_clean_caps text) with
  | none => none
  | some g =>
    if ((g.filter isParenKeep).filter isAlnumUp).length < 5 then none
    else some (g.filter isParenKeep)

/-- One attempt of `\b[0-9A-Z]{5,}(?:#[0-9A-Z]{2,})\b` anchored at the current
position (the position is already known to start an alphanumeric run). -/
def tryHP (l : List Char) : Option (List Char) :=
  if 5 ≤ (l.takeWhile isAlnumUp).length then
    match l.dropWhile isAlnumUp with
    | '#' :: tail =>
      if 2 ≤ (tail.takeWhile isAlnumUp).length ∧
         (match tail.dropWhile isAlnumUp with
          | [] => true
          | d :: _ => !isWordChar d) = true
      then some (l.takeWhile isAlnumUp ++ '#' :: tail.takeWhile isAlnumUp)
      else none
    | _ => none
  else none

/-- Scan of `re.search(r"\b[0-9A-Z]{5,}(?:#[0-9A-Z]{2,})\b", s)`: try every
start position from left to right; a valid start must sit at a word boundary,
i.e. the previous character (tracked by the flag) is not a word character. -/
def hpScan : Bool → List Char → Option (List Char)
  | _, [] => none
  | prevWord, c :: rest =>
    if !prevWord && isAlnumUp c then
      match tryHP (c :: rest) with
      | some tok => some tok
      | none => hpScan (isWordChar c) rest
    else hpScan (isWordChar c) rest

/-- `_find_hp_monitor_id`. -/
def _find_hp_monitor_id (text : List Char) : Option (List Char) :=
  hpScan false (_clean_caps text)

/-- Maximal runs of `[A-Z0-9]` characters, via an accumulator holding the
current run in reverse. -/
def alnumRunsAux : List Char → List Char → List (List Char)
  | cur, [] => if cur.isEmpty then [] else [cur.reverse]
  | cur, c :: rest =>
    if isAlnumUp c then alnumRunsAux (c :: cur) rest
    else if cur.isEmpty then alnumRunsAux [] rest
    else cur.reverse :: alnumRunsAux [] rest

def alnumRuns (l : List Char) : List (List Char) := alnumRunsAux [] l

/-- `re.match(r"^\d{1,2}YRS$", t)`: one or two digits followed by `YRS`. -/
def yrsShape (t : List Char) : Bool :=
  match t with
  | [a, 'Y', 'R', 'S'] => isDigitChar a
  | [a, b, 'Y', 'R', 'S'] => isDigitChar a && isDigitChar b
  | _ => false

/-- The filter body of `_find_dell_model_like`: a token survives when it is
not pure-digit (`t.isdigit()`), not in `BANNED_TOKENS`, does not match
`^\d{3,}$` nor `^\d{1,2}YRS$`, and contains both a letter and a digit. -/
def keepToken (t : List Char) : Bool :=
  if (!t.isEmpty && t.all isDigitChar) = true then false
  else if t ∈ bannedTokens then false
  else if (3 ≤ t.length ∧ t.all isDigitChar = true) then false
  else if yrsShape t = true then false
  else t.any isUpperAlpha && t.any isDigitChar

/-- `t[0] in ("P","U","S","E","A")`. -/
def startsPref (t : List Char) : Bool :=
  t.head? == some 'P' || t.head? == some 'U' || t.head? == some 'S' ||
  t.head? == some 'E' || t.head? == some 'A'

/-- `re.sub(r"[^A-Z0-9\-\s]", " ", s)`: replace every character outside
`[A-Z0-9\-\s]` by a space. -/
def dellClean (c : Char) : Char :=
  if (isAlnumUp c || decide (c = '-') || pyIsSpace c) = true then c else ' '

/-- The `filtered` token list of `_find_dell_model_like`: whole-word
`[A-Z0-9]` tokens of length at least 5 of the stripped text that survive the
filter loop. -/
def dellFiltered (text : List Char) : List (List Char) :=
  ((alnumRuns ((_clean_caps text).map dellClean)).filter
    (fun t => 5 ≤ t.length)).filter keepToken

/-- `_find_dell_model_like`: `preferred[-1] if preferred else filtered[-1]`,
or nothing when no token survives. -/
def _find_dell_model_like (text : List Char) : Option (List Char) :=
  if (dellFiltered text).isEmpty then none
  else
    match ((dellFiltered text).filter startsPref).getLast? with
    | some x => some x
    | none => (dellFiltered text).getLast?

/-- Truthiness coercion `s or None` on a resolved string. -/
def strOpt (s : List Char) : Option (List Char) :=
  if s.isEmpty then none else some s

/-- Python `a or b` on optional strings: `a` wins unless it is `None` or the
empty (falsy) string. -/
def pyOr (a b : Option (List Char)) : Option (List Char) :=
  match a with
  | some x => if x.isEmpty then b else some x
  | none => b

/-- `_phrase_before_first_comma`. -/
def _phrase_before_first_comma (text : List Char) : Option (List Char) :=
  if text.isEmpty then none
  else strOpt (pyStrip (text.takeWhile (fun c => !decide (c = ','))))

/-- `_generic_from_description`. -/
def _generic_from_description (text : List Char) : Option (List Char) :=
  pyOr (_find_parenthetical_id text)
    (pyOr (_find_hp_monitor_id text) (_find_dell_model_like text))

/-- A Python dictionary key as it occurs in a row mapping: a column label
(string) or a positional integer index. -/
inductive PyKey where
  | int (n : Int)
  | str (s : List Char)
deriving DecidableEq

/-- A Python cell value as seen by the extractor: `None`, a string, or some
other object characterised by its truthiness and its `str()` image. -/
inductive PyCell where
  | none
  | str (s : List Char)
  | other (truthy : Bool) (repr : List Char)
deriving DecidableEq

/-- A row: an ordered mapping from keys to cell values. -/
abbrev Row : Type := List (PyKey × PyCell)

/-- `str(k)` on a key. -/
def keyRepr : PyKey → List Char
  | .int n => (toString n).toList
  | .str s => s

/-- `str(v or "")`: `None` and falsy values coerce to the empty string. -/
def cellToStr : PyCell → List Char
  | .none => []
  | .str s => s
  | .other t r => if t then r else []

/-- Dictionary lookup `row[k]` (first binding wins). -/
def lookupCell (k : PyKey) : Row → Option PyCell
  | [] => Option.none
  | kv :: rest => if kv.1 = k then some kv.2 else lookupCell k rest

/-- `k in row`. -/
def hasKey (k : PyKey) : Row → Bool
  | [] => false
  | kv :: rest => decide (kv.1 = k) || hasKey k rest

/-- `row[k]` in the `Except` monad: raises `KeyError` when the key is absent. -/
def lookupE (k : PyKey) (row : Row) : Except (List Char) PyCell :=
  match lookupCell k row with
  | some v => .ok v
  | Option.none => .error "KEYERROR".toList

/-- `list(row.keys())[0]`: raises `IndexError` on an empty row. -/
def firstKeyE (row : Row) : Except (List Char) PyKey :=
  match row with
  | [] => .error "INDEXERROR".toList
  | kv :: _ => .ok kv.1

/-- The header-probing loop of `extract_product_id_for_row`: scans the keys in
order and records the description / part-number / reference cells; later
matching keys overwrite earlier ones; the price labels are ignored. -/
def labelLoop (row : Row) : PyCell × PyCell × PyCell :=
  row.foldl
    (fun acc kv =>
      let ku := _clean_caps (keyRepr kv.1)
      if ku = "DESCRIPTION".toList then (kv.2, acc.2.1, acc.2.2)
      else if ku = "PART NUMBER".toList ∨ ku = "PART".toList ∨
              ku = "PART NO".toList ∨ ku = "P/N".toList then
        (acc.1, kv.2, acc.2.2)
      else if ku = "REF".toList ∨ ku = "REFERENCE".toList then
        (acc.1, acc.2.1, kv.2)
      else acc)
    (PyCell.none, PyCell.none, PyCell.none)

/-- Description fallback: positional cell 0, else the value under the first
key (the `try`/`except` of the source catches the `IndexError` of an empty
row and leaves the description as `None`). -/
def resolveDescE (row : Row) (d0 : PyCell) : Except (List Char) PyCell :=
  if d0 = PyCell.none then
    if hasKey (.int 0) row then lookupE (.int 0) row
    else
      match (firstKeyE row).bind (fun k => lookupE k row) with
      | .ok v => .ok v
      | .error _ => .ok PyCell.none
  else .ok d0

/-- Part-number fallback: positional cell 1. -/
def resolvePartE (row : Row) (p0 : PyCell) : Except (List Char) PyCell :=
  if p0 = PyCell.none ∧ hasKey (.int 1) row = true then lookupE (.int 1) row
  else .ok p0

/-- Reference fallback: the literal key `"REF"`. -/
def resolveRefE (row : Row) (r0 : PyCell) : Except (List Char) PyCell :=
  if r0 = PyCell.none ∧ hasKey (.str "REF".toList) row = true then
    lookupE (.str "REF".toList) row
  else .ok r0

/-- Field resolution of `extract_product_id_for_row` (lines 72-103). -/
def resolveCells (row : Row) : Except (List Char) (PyCell × PyCell × PyCell) :=
  match resolveDescE row (labelLoop row).1 with
  | .error e => .error e
  | .ok d =>
    match resolvePartE row (labelLoop row).2.1 with
    | .error e => .error e
    | .ok p =>
      match resolveRefE row (labelLoop row).2.2 with
      | .error e => .error e
      | .ok r => .ok (d, p, r)

/-- Substring containment, Python `needle in hay`. -/
def containsTok (hay needle : List Char) : Bool :=
  match hay with
  | [] => needle.isEmpty
  | _ :: t => needle.isPrefixOf hay || containsTok t needle

/-- The sheet-name dispatch of `extract_product_id_for_row` (lines 109-150),
applied to the normalized sheet name and the three resolved, stripped
fields. -/
def dispatch (sname desc part ref : List Char) : Option (List Char) :=
  if containsTok sname "UPS".toList then strOpt ref
  else if containsTok sname "MICROSOFT".toList || containsTok sname "ASUS".toList then
    pyOr (_generic_from_description desc)
      (if (!part.isEmpty && !(pyUpper part == "NEW".toList)) = true then some part
       else Option.none)
  else if containsTok sname "LENOVO".toList &&
          (containsTok sname "NOTEBOOK".toList || containsTok sname "OPTION".toList) then
    pyOr (_generic_from_description desc) (strOpt part)
  else if containsTok sname "LENOVO".toList then
    pyOr (_generic_from_description desc) (strOpt part)
  else if containsTok sname "HP".toList && containsTok sname "MONITOR".toList then
    pyOr (_find_hp_monitor_id desc)
      (pyOr (_find_parenthetical_id desc) (_find_dell_model_like desc))
  else if containsTok sname "HP".toList &&
          (containsTok sname "SERVER".toList || containsTok sname "PART".toList) then
    pyOr (_find_parenthetical_id desc) (_generic_from_description desc)
  else if containsTok sname "HP".toList &&
          (containsTok sname "NOTEBOOK".toList || containsTok sname "WORKSTATION".toList ||
           containsTok sname "OPTION".toList) then
    pyOr (_phrase_before_first_comma desc) (_generic_from_description desc)
  else if containsTok sname "HP".toList &&
          (containsTok sname "PCS".toList || containsTok sname "AIO".toList ||
           containsTok sname "WORKSTATION".toList) then
    pyOr (_find_parenthetical_id desc) (_generic_from_description desc)
  else if containsTok sname "DELL".toList &&
          (containsTok sname "MONITOR".toList || containsTok sname "ACCESSOR".toList) then
    pyOr (_generic_from_description desc) (strOpt part)
  else if containsTok sname "CONSUMER".toList || containsTok sname "AIO".toList ||
          containsTok sname "GAMING".toList then
    pyOr (_find_parenthetical_id desc) (_generic_from_description desc)
  else
    pyOr (_generic_from_description desc) (pyOr (strOpt part) (strOpt ref))

/-- `extract_product_id_for_row`. -/
def extract_product_id_for_row (sheetName : List Char) (row : Row) :
    Except (List Char) (Option (List Char)) :=
  match resolveCells row with
  | .error e => .error e
  | .ok (d, p, r) =>
    .ok (dispatch (_clean_caps sheetName)
          (pyStrip (cellToStr d)) (pyStrip (cellToStr p)) (pyStrip (cellToStr r)))

/-- Modelled from the spec sentence for the alphanumeric-token matcher: a
survivor is a token that is not pure-digit, not denylisted, not of shape
"1-2 digits + YRS", and contains both a letter and a digit. -/
def dellSpecKeep (t : List Char) : Bool :=
  !(!t.isEmpty && t.all isDigitChar) && !(decide (t ∈ bannedTokens)) &&
  !(yrsShape t) && t.any isUpperAlpha && t.any isDigitChar

/-- Modelled from the spec sentence for the alphanumeric-token matcher as a
whole: whole-word tokens of length ≥ 5 of the stripped text, filtered by
`dellSpecKeep`; the last survivor starting with one of `P,U,S,E,A` is
preferred, else the last survivor overall. -/
def dellSpecSurvivors (text : List Char) : List (List Char) :=
  ((alnumRuns ((_clean_caps text).map dellClean)).filter
    (fun t => 5 ≤ t.length)).filter dellSpecKeep

def dellSpecModel (text : List Char) : Option (List Char) :=
  match ((dellSpecSurvivors text).filter startsPref).getLast? with
  | some x => some x
  | Option.none => (dellSpecSurvivors text).getLast?

/-- The head of the list, when present, is not whitespace. -/
def headNotWS : List Char → Bool
  | [] => true
  | d :: _ => !pyIsSpace d

/-- Invariant of collapsed text: every whitespace character is a literal
space and no two whitespace characters are adjacent. -/
def goodWS : List Char → Bool
  | [] => true
  | c :: rest =>
    (if pyIsSpace c = true then decide (c = ' ') && headNotWS rest else true) &&
    goodWS rest

end ExcelAuto

namespace ExcelAuto

theorem toNat_ofNat_valid (n : Nat) (h1 : 65 ≤ n) (h2 : n ≤ 90) :
    (Char.ofNat n).toNat = n := by
  interval_cases n <;> rfl

theorem pyUpperChar_idem (c : Char) : pyUpperChar (pyUpperChar c) = pyUpperChar c := by
  unfold pyUpperChar
  by_cases h : 97 ≤ c.toNat ∧ c.toNat ≤ 122
  · rw [if_pos h]
    have e : (Char.ofNat (c.toNat - 32)).toNat = c.toNat - 32 :=
      toNat_ofNat_valid _ (by omega) (by omega)
    rw [if_neg]
    intro hcon
    rw [e] at hcon
    omega
  · rw [if_neg h, if_neg h]

theorem pyIsSpace_pyUpperChar (c : Char) : pyIsSpace (pyUpperChar c) = pyIsSpace c := by
  unfold pyUpperChar
  by_cases h : 97 ≤ c.toNat ∧ c.toNat ≤ 122
  · rw [if_pos h]
    have e : (Char.ofNat (c.toNat - 32)).toNat = c.toNat - 32 :=
      toNat_ofNat_valid _ (by omega) (by omega)
    unfold pyIsSpace
    rw [e, decide_eq_decide]
    omega
  · rw [if_neg h]

theorem pyUpperChar_space : pyUpperChar ' ' = ' ' := rfl

theorem pyIsSpace_space : pyIsSpace ' ' = true := rfl

theorem goodWS_cons (c : Char) (rest : List Char) :
    goodWS (c :: rest) =
      ((if pyIsSpace c = true then decide (c = ' ') && headNotWS rest else true) &&
       goodWS rest) := rfl

theorem goodWS_cons_intro {c : Char} {rest : List Char}
    (h1 : pyIsSpace c = true → (c = ' ' ∧ headNotWS rest = true))
    (h2 : goodWS rest = true) : goodWS (c :: rest) = true := by
  rw [goodWS_cons]
  by_cases hc : pyIsSpace c = true
  · obtain ⟨hsp, hhn⟩ := h1 hc
    simp [hc, hsp, hhn, h2]
  · simp [hc, h2]

theorem goodWS_cons_elim {c : Char} {rest : List Char} (h : goodWS (c :: rest) = true) :
    (pyIsSpace c = true → (c = ' ' ∧ headNotWS rest = true)) ∧ goodWS rest = true := by
  rw [goodWS_cons] at h
  by_cases hc : pyIsSpace c = true
  · simp only [hc, if_true, Bool.and_eq_true, decide_eq_true_eq] at h
    exact ⟨fun _ => ⟨h.1.1, h.1.2⟩, h.2⟩
  · simp only [hc, Bool.false_eq_true, if_false, Bool.true_and] at h
    exact ⟨fun hcon => absurd hcon (by simp [hc]), h⟩

theorem headNotWS_collapse_true : ∀ l : List Char, headNotWS (collapseWSAux true l) = true := by
  intro l
  induction l with
  | nil => rfl
  | cons c rest ih =>
    by_cases hc : pyIsSpace c = true
    · simp [collapseWSAux, hc, ih]
    · simp [collapseWSAux, hc, headNotWS]

theorem goodWS_collapse : ∀ (l : List Char) (b : Bool), goodWS (collapseWSAux b l) = true := by
  intro l
  induction l with
  | nil => intro b; rfl
  | cons c rest ih =>
    intro b
    by_cases hc : pyIsSpace c = true
    · cases b with
      | true => simp only [collapseWSAux, hc, if_true]; exact ih true
      | false =>
        simp only [collapseWSAux, hc, if_true, Bool.false_eq_true, if_false]
        exact goodWS_cons_intro
          (fun _ => ⟨rfl, headNotWS_collapse_true rest⟩) (ih true)
    · simp only [collapseWSAux, hc, if_false]
      exact goodWS_cons_intro (fun hcon => absurd hcon (by simp [hc])) (ih false)

theorem goodWS_tail {c : Char} {rest : List Char} (h : goodWS (c :: rest) = true) :
    goodWS rest = true := (goodWS_cons_elim h).2

theorem goodWS_dropWhile (p : Char → Bool) :
    ∀ l : List Char, goodWS l = true → goodWS (l.dropWhile p) = true := by
  intro l
  induction l with
  | nil => intro h; exact h
  | cons c rest ih =>
    intro h
    by_cases hc : p c = true
    · rw [List.dropWhile_cons, if_pos hc]
      exact ih (goodWS_tail h)
    · rw [List.dropWhile_cons, if_neg (by simp [hc])]
      exact h

theorem stripRight_shape (c : Char) (rest : List Char) :
    stripRight (c :: rest) = [] ∨ ∃ r, stripRight (c :: rest) = c :: r := by
  unfold stripRight
  cases e : stripRight rest with
  | nil =>
    by_cases hc : pyIsSpace c = true
    · left; simp [hc]
    · right; exact ⟨[], by simp [hc]⟩
  | cons d r' => right; exact ⟨d :: r', rfl⟩

theorem goodWS_stripRight : ∀ l : List Char, goodWS l = true → goodWS (stripRight l) = true := by
  intro l
  induction l with
  | nil => intro h; exact h
  | cons c rest ih =>
    intro h
    have hrest : goodWS rest = true := goodWS_tail h
    cases e : stripRight rest with
    | nil =>
      unfold stripRight
      rw [e]
      show goodWS (if pyIsSpace c = true then [] else [c]) = true
      by_cases hc : pyIsSpace c = true
      · rw [if_pos hc]; rfl
      · rw [if_neg hc]
        exact goodWS_cons_intro (fun hcon => absurd hcon hc) rfl
    | cons d r' =>
      unfold stripRight
      rw [e]
      have hgr : goodWS (d :: r') = true := e ▸ ih hrest
      cases rest with
      | nil => simp [stripRight] at e
      | cons x t =>
        have hd : d = x := by
          rcases stripRight_shape x t with h0 | ⟨r, hr⟩
          · rw [h0] at e; exact absurd e (by simp)
          · rw [hr] at e; exact (List.cons.injEq _ _ _ _ ▸ e).1.symm
        refine goodWS_cons_intro ?_ hgr
        intro hc
        obtain ⟨h1, _⟩ := goodWS_cons_elim h
        obtain ⟨hsp, hhn⟩ := h1 hc
        refine ⟨hsp, ?_⟩
        simp only [headNotWS] at hhn ⊢
        rw [hd]
        exact hhn

theorem collapse_fixed : ∀ (l : List Char) (b : Bool), goodWS l = true →
    (b = true → headNotWS l = true) → collapseWSAux b l = l := by
  intro l
  induction l with
  | nil => intro b _ _; rfl
  | cons c rest ih =>
    intro b h hb
    by_cases hc : pyIsSpace c = true
    · cases b with
      | true =>
        have : headNotWS (c :: rest) = true := hb rfl
        simp [headNotWS, hc] at this
      | false =>
        obtain ⟨h1, hrest⟩ := goodWS_cons_elim h
        obtain ⟨hsp, hhn⟩ := h1 hc
        have hrec : collapseWSAux true rest = rest := ih true hrest (fun _ => hhn)
        simp only [collapseWSAux, hc, if_true, Bool.false_eq_true, if_false, hrec, hsp,
          pyIsSpace_space]
    · have hrec : collapseWSAux false rest = rest :=
        ih false (goodWS_tail h) (by intro hcon; exact absurd hcon (by simp))
      simp only [collapseWSAux, hc, Bool.false_eq_true, if_false, hrec]

theorem dropWhileIdem (p : Char → Bool) :
    ∀ l : List Char, (l.dropWhile p).dropWhile p = l.dropWhile p := by
  intro l
  induction l with
  | nil => rfl
  | cons c rest ih =>
    by_cases hc : p c = true
    · rw [List.dropWhile_cons, if_pos hc]
      exact ih
    · rw [List.dropWhile_cons, if_neg hc, List.dropWhile_cons, if_neg hc]

theorem stripRight_eq_nil_iff : ∀ l : List Char, stripRight l = [] ↔ l.all pyIsSpace = true := by
  intro l
  induction l with
  | nil => simp [stripRight]
  | cons c rest ih =>
    unfold stripRight
    cases e : stripRight rest with
    | nil =>
      have hall : rest.all pyIsSpace = true := (ih.mp e)
      by_cases hc : pyIsSpace c = true
      · simp [hc, hall]
      · simp [hc, hall]
    | cons d r' =>
      have hnall : ¬ rest.all pyIsSpace = true := fun hall => by
        rw [ih.mpr hall] at e
        exact absurd e (by simp)
      simp [List.all_cons, hnall]

theorem stripRight_nil : stripRight [] = [] := rfl

theorem stripRight_cons (c : Char) (rest : List Char) :
    stripRight (c :: rest) =
      (match stripRight rest with
       | [] => if pyIsSpace c = true then [] else [c]
       | r => c :: r) := rfl

theorem stripRight_idem : ∀ l : List Char, stripRight (stripRight l) = stripRight l := by
  intro l
  induction l with
  | nil => rfl
  | cons c rest ih =>
    cases e : stripRight rest with
    | nil =>
      rw [stripRight_cons c rest, e]
      by_cases hc : pyIsSpace c = true
      · simp only [hc, if_true]
        rfl
      · simp only [hc, Bool.false_eq_true, if_false]
        rw [stripRight_cons c [], stripRight_nil]
        simp [hc]
    | cons d r' =>
      rw [stripRight_cons c rest, e]
      have hin : stripRight (d :: r') = d :: r' := by
        rw [← e, ih]
      show stripRight (c :: d :: r') = c :: d :: r'
      rw [stripRight_cons c (d :: r'), hin]

theorem stripRight_dropWhile_comm :
    ∀ l : List Char, (stripRight l).dropWhile pyIsSpace = stripRight (l.dropWhile pyIsSpace) := by
  intro l
  induction l with
  | nil => rfl
  | cons c rest ih =>
    by_cases hc : pyIsSpace c = true
    · rw [List.dropWhile_cons, if_pos hc]
      cases e : stripRight rest with
      | nil =>
        have hall : rest.all pyIsSpace = true := (stripRight_eq_nil_iff rest).mp e
        have hdw : rest.dropWhile pyIsSpace = [] := by
          rw [List.dropWhile_eq_nil_iff]
          intro x hx
          exact List.all_eq_true.mp hall x hx
        rw [stripRight_cons c rest, e, hdw, stripRight_nil]
        simp [hc]
      | cons d r' =>
        rw [stripRight_cons c rest, e]
        show List.dropWhile pyIsSpace (c :: d :: r') = stripRight (rest.dropWhile pyIsSpace)
        rw [List.dropWhile_cons, if_pos hc, ← e, ih]
    · rw [List.dropWhile_cons, if_neg hc]
      cases e : stripRight rest with
      | nil =>
        rw [stripRight_cons c rest, e]
        simp only [hc, Bool.false_eq_true, if_false]
        simp [List.dropWhile_cons, hc]
      | cons d r' =>
        rw [stripRight_cons c rest, e]
        show List.dropWhile pyIsSpace (c :: d :: r') = c :: d :: r'
        rw [List.dropWhile_cons, if_neg hc]

theorem pyStrip_idem (l : List Char) : pyStrip (pyStrip l) = pyStrip l := by
  unfold pyStrip
  rw [stripRight_dropWhile_comm, dropWhileIdem, stripRight_idem]

theorem goodWS_pyStrip (l : List Char) (h : goodWS l = true) : goodWS (pyStrip l) = true :=
  goodWS_stripRight _ (goodWS_dropWhile _ _ h)

theorem collapseWSAux_map_upper :
    ∀ (l : List Char) (b : Bool),
      collapseWSAux b (l.map pyUpperChar) = (collapseWSAux b l).map pyUpperChar := by
  intro l
  induction l with
  | nil => intro b; rfl
  | cons c rest ih =>
    intro b
    rw [List.map_cons]
    by_cases hc : pyIsSpace c = true
    · have hc' : pyIsSpace (pyUpperChar c) = true := by rw [pyIsSpace_pyUpperChar]; exact hc
      cases b with
      | true => simp only [collapseWSAux, hc, hc', if_true, ih true]
      | false =>
        simp only [collapseWSAux, hc, hc', if_true, Bool.false_eq_true, if_false,
          List.map_cons, ih true, pyUpperChar_space]
    · have hc' : ¬ pyIsSpace (pyUpperChar c) = true := by rw [pyIsSpace_pyUpperChar]; exact hc
      simp only [collapseWSAux, hc, hc', Bool.false_eq_true, if_false, List.map_cons, ih false]

theorem dropWhile_map_upper (l : List Char) :
    (l.map pyUpperChar).dropWhile pyIsSpace = (l.dropWhile pyIsSpace).map pyUpperChar := by
  rw [List.dropWhile_map]
  have : pyIsSpace ∘ pyUpperChar = pyIsSpace := funext pyIsSpace_pyUpperChar
  rw [this]

theorem stripRight_map_upper :
    ∀ l : List Char, stripRight (l.map pyUpperChar) = (stripRight l).map pyUpperChar := by
  intro l
  induction l with
  | nil => rfl
  | cons c rest ih =>
    rw [List.map_cons, stripRight_cons, stripRight_cons, ih]
    cases e : stripRight rest with
    | nil =>
      simp only [e, List.map_nil, pyIsSpace_pyUpperChar]
      by_cases hc : pyIsSpace c = true
      · simp [hc]
      · simp [hc]
    | cons d r' => simp only [e, List.map_cons]

theorem pyStrip_map_upper (l : List Char) :
    pyStrip (l.map pyUpperChar) = (pyStrip l).map pyUpperChar := by
  unfold pyStrip
  rw [dropWhile_map_upper, stripRight_map_upper]

theorem map_upper_idem (l : List Char) :
    (l.map pyUpperChar).map pyUpperChar = l.map pyUpperChar := by
  rw [List.map_map]
  have : pyUpperChar ∘ pyUpperChar = pyUpperChar := funext pyUpperChar_idem
  rw [this]

theorem lookupCell_isSome_of_hasKey {k : PyKey} :
    ∀ row : Row, hasKey k row = true → ∃ v, lookupCell k row = some v := by
  intro row
  induction row with
  | nil => intro h; simp [hasKey] at h
  | cons kv rest ih =>
    intro h
    by_cases he : kv.1 = k
    · exact ⟨kv.2, by simp [lookupCell, he]⟩
    · simp only [hasKey, Bool.or_eq_true, decide_eq_true_eq] at h
      rcases h with h | h
      · exact absurd h he
      · obtain ⟨v, hv⟩ := ih h
        exact ⟨v, by simp [lookupCell, he, hv]⟩

theorem lookupE_ok {k : PyKey} {row : Row} (h : hasKey k row = true) :
    ∃ v, lookupE k row = .ok v := by
  obtain ⟨v, hv⟩ := lookupCell_isSome_of_hasKey row h
  exact ⟨v, by simp [lookupE, hv]⟩

theorem resolveDescE_ok (row : Row) (d0 : PyCell) : ∃ v, resolveDescE row d0 = .ok v := by
  unfold resolveDescE
  by_cases h0 : d0 = PyCell.none
  · rw [if_pos h0]
    by_cases hk : hasKey (.int 0) row = true
    · rw [if_pos hk]
      exact lookupE_ok hk
    · rw [if_neg hk]
      cases hm : (firstKeyE row).bind (fun k => lookupE k row) with
      | ok v => exact ⟨v, rfl⟩
      | error e => exact ⟨PyCell.none, rfl⟩
  · rw [if_neg h0]
    exact ⟨d0, rfl⟩

theorem resolvePartE_ok (row : Row) (p0 : PyCell) : ∃ v, resolvePartE row p0 = .ok v := by
  unfold resolvePartE
  by_cases h : (p0 = PyCell.none ∧ hasKey (.int 1) row = true)
  · rw [if_pos h]
    exact lookupE_ok h.2
  · rw [if_neg h]
    exact ⟨p0, rfl⟩

theorem resolveRefE_ok (row : Row) (r0 : PyCell) : ∃ v, resolveRefE row r0 = .ok v := by
  unfold resolveRefE
  by_cases h : (r0 = PyCell.none ∧ hasKey (.str "REF".toList) row = true)
  · rw [if_pos h]
    exact lookupE_ok h.2
  · rw [if_neg h]
    exact ⟨r0, rfl⟩

theorem resolveCells_ok (row : Row) : ∃ d p r, resolveCells row = .ok (d, p, r) := by
  unfold resolveCells
  obtain ⟨d, hd⟩ := resolveDescE_ok row (labelLoop row).1
  obtain ⟨p, hp⟩ := resolvePartE_ok row (labelLoop row).2.1
  obtain ⟨r, hr⟩ := resolveRefE_ok row (labelLoop row).2.2
  exact ⟨d, p, r, by rw [hd, hp, hr]⟩

theorem clean_caps_idem (l : List Char) : _clean_caps (_clean_caps l) = _clean_caps l := by
  show pyUpper (pyStrip (collapseWSAux false (pyUpper (pyStrip (collapseWSAux false l))))) =
    pyUpper (pyStrip (collapseWSAux false l))
  unfold pyUpper
  rw [collapseWSAux_map_upper, pyStrip_map_upper, map_upper_idem]
  have hgood : goodWS (pyStrip (collapseWSAux false l)) = true :=
    goodWS_pyStrip _ (goodWS_collapse l false)
  rw [collapse_fixed _ false hgood (fun hcon => absurd hcon (by simp)), pyStrip_idem]

theorem paren_some_shape {t c : List Char} (h : _find_parenthetical_id t = some c) :
    c.all isParenKeep = true ∧ 5 ≤ (c.filter isAlnumUp).length := by
  unfold _find_parenthetical_id at h
  split at h
  · exact absurd h (by simp)
  · split at h
    · exact absurd h (by simp)
    · rename_i g hg hlen
      injection h with h
      subst h
      refine ⟨List.all_eq_true.mpr (fun x hx => (List.mem_filter.mp hx).2), ?_⟩
      omega

theorem paren_some_nonempty {t c : List Char} (h : _find_parenthetical_id t = some c) :
    0 < c.length := by
  obtain ⟨_, hlen⟩ := paren_some_shape h
  have := List.length_filter_le isAlnumUp c
  omega

theorem tryHP_shape {l tok : List Char} (h : tryHP l = some tok) :
    ∃ a b, tok = a ++ '#' :: b ∧ 5 ≤ a.length ∧ 2 ≤ b.length ∧
      a.all isAlnumUp = true ∧ b.all isAlnumUp = true := by
  unfold tryHP at h
  split at h
  · rename_i h5
    split at h
    · rename_i tail heq
      split at h
      · rename_i hcond
        injection h with h
        subst h
        refine ⟨l.takeWhile isAlnumUp, tail.takeWhile isAlnumUp, rfl, h5, hcond.1, ?_, ?_⟩
        · exact List.all_eq_true.mpr (fun x hx => List.mem_takeWhile_imp hx)
        · exact List.all_eq_true.mpr (fun x hx => List.mem_takeWhile_imp hx)
      · exact absurd h (by simp)
    · exact absurd h (by simp)
  · exact absurd h (by simp)

theorem hpScan_shape : ∀ (l : List Char) (b : Bool) (tok : List Char),
    hpScan b l = some tok →
    ∃ a b', tok = a ++ '#' :: b' ∧ 5 ≤ a.length ∧ 2 ≤ b'.length ∧
      a.all isAlnumUp = true ∧ b'.all isAlnumUp = true := by
  intro l
  induction l with
  | nil => intro b tok h; simp [hpScan] at h
  | cons c rest ih =>
    intro b tok h
    unfold hpScan at h
    split at h
    · split at h
      · rename_i htry
        injection h with h
        subst h
        exact tryHP_shape htry
      · exact ih _ _ h
    · exact ih _ _ h

theorem hp_some_shape {t r : List Char} (h : _find_hp_monitor_id t = some r) :
    ∃ a b, r = a ++ '#' :: b ∧ 5 ≤ a.length ∧ 2 ≤ b.length ∧
      a.all isAlnumUp = true ∧ b.all isAlnumUp = true :=
  hpScan_shape _ _ _ h

theorem hp_some_nonempty {t r : List Char} (h : _find_hp_monitor_id t = some r) :
    0 < r.length := by
  obtain ⟨a, b, heq, h5, h2, _, _⟩ := hp_some_shape h
  subst heq
  simp only [List.length_append, List.length_cons]
  omega

theorem mem_dellFiltered_keep {t x : List Char} (hx : x ∈ dellFiltered t) :
    keepToken x = true := by
  have hx' : x ∈ ((alnumRuns ((_clean_caps t).map dellClean)).filter
      (fun t => decide (5 ≤ t.length))).filter keepToken := hx
  exact (List.mem_filter.mp hx').2

theorem dell_some_keep {t x : List Char} (h : _find_dell_model_like t = some x) :
    keepToken x = true := by
  unfold _find_dell_model_like at h
  split at h
  · exact absurd h (by simp)
  · split at h
    · rename_i x0 hlast
      injection h with h
      subst h
      have hx : x0 ∈ (dellFiltered t).filter startsPref :=
        List.mem_of_mem_getLast? (Option.mem_def.mpr hlast)
      exact mem_dellFiltered_keep (List.mem_filter.mp hx).1
    · rename_i hnone
      have hx : x ∈ dellFiltered t :=
        List.mem_of_mem_getLast? (Option.mem_def.mpr h)
      exact mem_dellFiltered_keep hx

theorem keepToken_not_banned {x : List Char} (h : keepToken x = true) :
    x ∉ bannedTokens := by
  unfold keepToken at h
  split_ifs at h with h1 h2 h3 h4
  exact h2

theorem keepToken_any_digit {x : List Char} (h : keepToken x = true) :
    x.any isDigitChar = true := by
  unfold keepToken at h
  split_ifs at h with h1 h2 h3 h4
  exact (Bool.and_eq_true _ _ ▸ h).2

theorem keepToken_nonempty {x : List Char} (h : keepToken x = true) : 0 < x.length := by
  obtain ⟨a, ha, _⟩ := List.any_eq_true.mp (keepToken_any_digit h)
  exact List.length_pos.mpr (List.ne_nil_of_mem ha)

theorem dell_some_nonempty {t x : List Char} (h : _find_dell_model_like t = some x) :
    0 < x.length :=
  keepToken_nonempty (dell_some_keep h)

theorem strOpt_nonempty {t : List Char} : ∀ s, strOpt t = some s → 0 < s.length := by
  intro s hs
  unfold strOpt at hs
  split at hs
  · exact absurd hs (by simp)
  · rename_i hne
    injection hs with hs
    subst hs
    cases t with
    | nil => simp [List.isEmpty] at hne
    | cons => simp

theorem pyOr_none (b : Option (List Char)) : pyOr Option.none b = b := rfl

theorem pyOr_some (x : List Char) (b : Option (List Char)) :
    pyOr (some x) b = if x.isEmpty = true then b else some x := rfl

theorem pyOr_nonempty {a b : Option (List Char)}
    (hb : ∀ s, b = some s → 0 < s.length) :
    ∀ s, pyOr a b = some s → 0 < s.length := by
  intro s hs
  cases a with
  | none =>
    rw [pyOr_none] at hs
    exact hb s hs
  | some x =>
    rw [pyOr_some] at hs
    by_cases hne : x.isEmpty = true
    · rw [if_pos hne] at hs
      exact hb s hs
    · rw [if_neg hne] at hs
      injection hs with hs
      subst hs
      cases x with
      | nil => simp [List.isEmpty] at hne
      | cons => simp

theorem phrase_nonempty {t : List Char} :
    ∀ s, _phrase_before_first_comma t = some s → 0 < s.length := by
  intro s hs
  unfold _phrase_before_first_comma at hs
  split at hs
  · exact absurd hs (by simp)
  · exact strOpt_nonempty s hs

theorem generic_nonempty {t : List Char} :
    ∀ s, _generic_from_description t = some s → 0 < s.length := by
  unfold _generic_from_description
  exact pyOr_nonempty (pyOr_nonempty (fun s h => dell_some_nonempty h))

theorem newGuard_nonempty {part : List Char} :
    ∀ s, (if (!part.isEmpty && !(pyUpper part == "NEW".toList)) = true
          then some part else Option.none) = some s → 0 < s.length := by
  intro s hs
  split at hs
  · rename_i hcond
    injection hs with hs
    have h1 : (!part.isEmpty) = true := ((Bool.and_eq_true _ _).mp hcond).1
    rw [← hs]
    cases part with
    | nil => simp at h1
    | cons => simp
  · exact absurd hs (by simp)

set_option maxHeartbeats 1000000 in
theorem dispatch_nonempty (sname desc part ref : List Char) :
    ∀ s, dispatch sname desc part ref = some s → 0 < s.length := by
  intro s h
  unfold dispatch at h
  split_ifs at h with hc1 hc2 hg hc3 hc4 hc5 hc6 hc7 hc8 hc9 hc10
  · exact strOpt_nonempty s h
  · refine pyOr_nonempty (fun s2 h2 => ?_) s h
    injection h2 with h2
    rw [← h2]
    cases part with
    | nil => simp at hg
    | cons => simp
  · exact pyOr_nonempty (fun s2 h2 => absurd h2 (by simp)) s h
  · exact pyOr_nonempty strOpt_nonempty s h
  · exact pyOr_nonempty strOpt_nonempty s h
  · exact pyOr_nonempty (pyOr_nonempty (fun s2 h2 => dell_some_nonempty h2)) s h
  · exact pyOr_nonempty generic_nonempty s h
  · exact pyOr_nonempty generic_nonempty s h
  · exact pyOr_nonempty generic_nonempty s h
  · exact pyOr_nonempty strOpt_nonempty s h
  · exact pyOr_nonempty generic_nonempty s h
  · exact pyOr_nonempty (pyOr_nonempty strOpt_nonempty) s h

theorem dispatch_ups {sname : List Char} (h : containsTok sname "UPS".toList = true)
    (desc part ref : List Char) : dispatch sname desc part ref = strOpt ref := by
  unfold dispatch
  rw [if_pos h]

theorem dispatch_ms_asus {sname : List Char}
    (hms : (containsTok sname "MICROSOFT".toList || containsTok sname "ASUS".toList) = true)
    (hups : containsTok sname "UPS".toList = false)
    (desc part ref : List Char) :
    dispatch sname desc part ref =
      pyOr (_generic_from_description desc)
        (if (!part.isEmpty && !(pyUpper part == "NEW".toList)) = true then some part
         else Option.none) := by
  have hups' : containsTok sname ['U', 'P', 'S'] = false := hups
  unfold dispatch
  rw [if_neg (by simp [hups']), if_pos hms]

theorem dispatch_hp_monitor {sname : List Char}
    (hhp : containsTok sname "HP".toList = true)
    (hmon : containsTok sname "MONITOR".toList = true)
    (hups : containsTok sname "UPS".toList = false)
    (hms : containsTok sname "MICROSOFT".toList = false)
    (hasus : containsTok sname "ASUS".toList = false)
    (hlen : containsTok sname "LENOVO".toList = false)
    (desc part ref : List Char) :
    dispatch sname desc part ref =
      pyOr (_find_hp_monitor_id desc)
        (pyOr (_find_parenthetical_id desc) (_find_dell_model_like desc)) := by
  have hups' : containsTok sname ['U', 'P', 'S'] = false := hups
  have hms' : containsTok sname ['M', 'I', 'C', 'R', 'O', 'S', 'O', 'F', 'T'] = false := hms
  have hasus' : containsTok sname ['A', 'S', 'U', 'S'] = false := hasus
  have hlen' : containsTok sname ['L', 'E', 'N', 'O', 'V', 'O'] = false := hlen
  have hhp' : containsTok sname ['H', 'P'] = true := hhp
  have hmon' : containsTok sname ['M', 'O', 'N', 'I', 'T', 'O', 'R'] = true := hmon
  unfold dispatch
  rw [if_neg (by simp [hups']), if_neg (by simp [hms', hasus']), if_neg (by simp [hlen']),
    if_neg (by simp [hlen']), if_pos (by simp [hhp', hmon'])]

theorem keepToken_eq_dellSpecKeep (t : List Char) : keepToken t = dellSpecKeep t := by
  unfold keepToken dellSpecKeep
  by_cases h1 : (!t.isEmpty && t.all isDigitChar) = true
  · rw [if_pos h1, h1]
    simp
  · rw [if_neg h1]
    have h1' : (!t.isEmpty && t.all isDigitChar) = false := by
      cases hb : (!t.isEmpty && t.all isDigitChar)
      · rfl
      · exact absurd hb h1
    rw [h1']
    by_cases h2 : t ∈ bannedTokens
    · rw [if_pos h2]
      simp [h2]
    · rw [if_neg h2]
      by_cases h3 : (3 ≤ t.length ∧ t.all isDigitChar = true)
      · exfalso
        obtain ⟨hlen, hall⟩ := h3
        have hne : t.isEmpty = false := by
          cases t with
          | nil => simp at hlen
          | cons => simp
        rw [hne, hall] at h1'
        simp at h1'
      · rw [if_neg h3]
        by_cases h4 : yrsShape t = true
        · rw [if_pos h4, h4]
          simp [h2]
        · rw [if_neg h4]
          have h4' : yrsShape t = false := by
            cases hb : yrsShape t
            · rfl
            · exact absurd hb h4
          rw [h4']
          simp [h2]

theorem dellFiltered_eq_survivors (t : List Char) : dellFiltered t = dellSpecSurvivors t := by
  unfold dellFiltered dellSpecSurvivors
  exact List.filter_congr (fun x _ => keepToken_eq_dellSpecKeep x)

theorem dell_eq_spec (t : List Char) : _find_dell_model_like t = dellSpecModel t := by
  unfold _find_dell_model_like dellSpecModel
  rw [dellFiltered_eq_survivors]
  by_cases he : (dellSpecSurvivors t).isEmpty = true
  · rw [if_pos he]
    have hnil : dellSpecSurvivors t = [] := by
      cases h : dellSpecSurvivors t with
      | nil => rfl
      | cons a l => rw [h] at he; simp at he
    rw [hnil]
    simp
  · rw [if_neg he]

theorem extract_eq_dispatch {row : Row} {d p r : PyCell}
    (hres : resolveCells row = .ok (d, p, r)) (sname : List Char) :
    extract_product_id_for_row sname row =
      .ok (dispatch (_clean_caps sname) (pyStrip (cellToStr d))
        (pyStrip (cellToStr p)) (pyStrip (cellToStr r))) := by
  unfold extract_product_id_for_row
  rw [hres]

/-- C1: for every input text and for every token in the fixed denylist, the
alphanumeric-token matcher never returns that token as its standalone result,
even when it is the only token of the input that passes the other filters. -/
theorem C1_denylist_never_returned (text x : List Char) (hx : x ∈ bannedTokens) :
    _find_dell_model_like text ≠ some x := fun h =>
  keepToken_not_banned (dell_some_keep h) hx

theorem C1_witness :
    "MONITOR".toList ∈ bannedTokens ∧
      _find_dell_model_like "Dell Monitor P3424WEB 24 inch".toList ≠
        some ("MONITOR".toList) :=
  ⟨by decide, C1_denylist_never_returned _ _ (by decide)⟩

/-- C3: the alphanumeric-token matcher agrees with the spec's description on
every input (whole-word tokens of length at least 5 after the character
replacement; pure-digit, digits+YRS and denylisted tokens discarded; only
letter-and-digit tokens kept; last P/U/S/E/A-initial survivor preferred, else
last survivor, else nothing); and the spec's two examples hold. -/
theorem C3_alphanumeric_token_matcher :
    (∀ t : List Char, _find_dell_model_like t = dellSpecModel t) ∧
    _find_dell_model_like "Dell Monitor P3424WEB 24 inch".toList =
      some "P3424WEB".toList ∧
    _find_dell_model_like "Monitor Display 12345 Abcdef".toList = Option.none :=
  ⟨dell_eq_spec, by decide, by decide⟩

/-- C5: the parenthetical matcher returns the spec's value on the two
examples; every returned candidate consists of `[A-Z0-9#\-]` characters only
and keeps at least five `[A-Z0-9]` characters; and it returns nothing when
the text has no parenthesized group. -/
theorem C5_parenthetical_matcher :
    _find_parenthetical_id "Laptop (82X700BTAX) 16GB".toList =
      some "82X700BTAX".toList ∧
    _find_parenthetical_id "Item (AB12)".toList = Option.none ∧
    (∀ t c : List Char, _find_parenthetical_id t = some c →
      c.all isParenKeep = true ∧ 5 ≤ (c.filter isAlnumUp).length) ∧
    (∀ t : List Char, parenGroup (_clean_caps t) = Option.none →
      _find_parenthetical_id t = Option.none) :=
  ⟨by decide, by decide, fun t c h => paren_some_shape h, fun t h => by
    unfold _find_parenthetical_id
    rw [h]⟩

theorem C5_witness :
    ("82X700BTAX".toList.all isParenKeep = true ∧
      5 ≤ ("82X700BTAX".toList.filter isAlnumUp).length) :=
  C5_parenthetical_matcher.2.2.1 "Laptop (82X700BTAX) 16GB".toList _ (by decide)

/-- C6: the hash-suffixed matcher returns the spec's value on the example;
every returned token is at least five alphanumerics, a `'#'`, and at least
two more alphanumerics; and it returns nothing when no such token exists. -/
theorem C6_hash_suffixed_matcher :
    _find_hp_monitor_id "65P58AS#ABV – HP V24i G5".toList =
      some "65P58AS#ABV".toList ∧
    _find_hp_monitor_id "HP V24i G5".toList = Option.none ∧
    (∀ t r : List Char, _find_hp_monitor_id t = some r →
      ∃ a b, r = a ++ '#' :: b ∧ 5 ≤ a.length ∧ 2 ≤ b.length ∧
        a.all isAlnumUp = true ∧ b.all isAlnumUp = true) :=
  ⟨by decide, by decide, fun t r h => hp_some_shape h⟩

theorem C6_witness :
    ∃ a b, "65P58AS#ABV".toList = a ++ '#' :: b ∧ 5 ≤ a.length ∧ 2 ≤ b.length ∧
      a.all isAlnumUp = true ∧ b.all isAlnumUp = true :=
  C6_hash_suffixed_matcher.2.2 "65P58AS#ABV – HP V24i G5".toList _ (by decide)

/-- C9: the text normalizer is total and idempotent; the empty input maps to
the empty string. -/
theorem C9_normalizer_idempotent :
    (∀ t : List Char, _clean_caps (_clean_caps t) = _clean_caps t) ∧
    _clean_caps [] = [] :=
  ⟨clean_caps_idem, rfl⟩

/-- C10: the extraction result is never the empty string: every successful
extraction yields a non-empty identifier. -/
theorem C10_no_empty_identifier :
    ∀ (sname : List Char) (row : Row),
      match extract_product_id_for_row sname row with
      | .ok (some s) => 0 < s.length
      | _ => True := by
  intro sname row
  obtain ⟨d, p, r, hres⟩ := resolveCells_ok row
  rw [extract_eq_dispatch hres sname]
  cases he : dispatch (_clean_caps sname) (pyStrip (cellToStr d))
      (pyStrip (cellToStr p)) (pyStrip (cellToStr r)) with
  | none => trivial
  | some s => exact dispatch_nonempty _ _ _ _ s he

/-- C2: the extractor never raises: for every sheet name and every row the
result is `Except.ok` (an optional identifier); `None` and falsy cells are
coerced to the empty string. -/
theorem C2_total_no_exception :
    (∀ (sname : List Char) (row : Row),
      ∃ res, extract_product_id_for_row sname row = .ok res) ∧
    cellToStr PyCell.none = [] ∧
    (∀ rep : List Char, cellToStr (PyCell.other false rep) = []) := by
  refine ⟨?_, rfl, fun rep => rfl⟩
  intro sname row
  obtain ⟨d, p, r, hres⟩ := resolveCells_ok row
  exact ⟨_, by unfold extract_product_id_for_row; rw [hres]⟩

/-- C7: for every sheet whose normalized name contains `UPS`, the extracted
identifier is the resolved reference field verbatim, or nothing when it is
empty; the spec's two end-to-end examples hold. -/
theorem C7_ups_reference_verbatim :
    (∀ (sname : List Char) (row : Row) (d p r : PyCell),
      resolveCells row = .ok (d, p, r) →
      containsTok (_clean_caps sname) "UPS".toList = true →
      extract_product_id_for_row sname row =
        .ok (strOpt (pyStrip (cellToStr r)))) ∧
    extract_product_id_for_row "UPS Accessories".toList
      [(PyKey.str "REF".toList, PyCell.str "UPS1234".toList)] =
      .ok (some "UPS1234".toList) ∧
    extract_product_id_for_row "UPS Accessories".toList
      [(PyKey.str "REF".toList, PyCell.str [])] = .ok Option.none := by
  refine ⟨?_, by rfl, by rfl⟩
  intro sname row d p r hres hups
  rw [extract_eq_dispatch hres sname, dispatch_ups hups]

theorem C7_witness :
    extract_product_id_for_row "UPS Accessories".toList
      [(PyKey.str "REF".toList, PyCell.str "UPS1234".toList)] =
      .ok (strOpt (pyStrip (cellToStr (PyCell.str "UPS1234".toList)))) :=
  C7_ups_reference_verbatim.1 "UPS Accessories".toList
    [(PyKey.str "REF".toList, PyCell.str "UPS1234".toList)]
    (PyCell.str "UPS1234".toList) PyCell.none (PyCell.str "UPS1234".toList)
    (by rfl) (by decide)

/-- C4 (amended): for every sheet whose normalized name contains both `HP`
and `MONITOR` and none of the earlier dispatch keywords `UPS`, `MICROSOFT`,
`ASUS`, `LENOVO`, the strategy is hash-suffixed, then parenthetical, then
alphanumeric-token, and a successful hash-suffixed match is always the
extracted identifier. -/
theorem C4_hp_monitor_priority_amended :
    ∀ (sname : List Char) (row : Row) (d p r : PyCell),
      resolveCells row = .ok (d, p, r) →
      containsTok (_clean_caps sname) "HP".toList = true →
      containsTok (_clean_caps sname) "MONITOR".toList = true →
      containsTok (_clean_caps sname) "UPS".toList = false →
      containsTok (_clean_caps sname) "MICROSOFT".toList = false →
      containsTok (_clean_caps sname) "ASUS".toList = false →
      containsTok (_clean_caps sname) "LENOVO".toList = false →
      extract_product_id_for_row sname row =
        .ok (pyOr (_find_hp_monitor_id (pyStrip (cellToStr d)))
          (pyOr (_find_parenthetical_id (pyStrip (cellToStr d)))
            (_find_dell_model_like (pyStrip (cellToStr d))))) ∧
      (∀ tok, _find_hp_monitor_id (pyStrip (cellToStr d)) = some tok →
        extract_product_id_for_row sname row = .ok (some tok)) := by
  intro sname row d p r hres hhp hmon hups hms hasus hlen
  have hdisp := dispatch_hp_monitor hhp hmon hups hms hasus hlen
    (pyStrip (cellToStr d)) (pyStrip (cellToStr p)) (pyStrip (cellToStr r))
  constructor
  · rw [extract_eq_dispatch hres sname, hdisp]
  · intro tok htok
    have hne : tok.isEmpty = false := by
      have := hp_some_nonempty htok
      cases tok with
      | nil => simp at this
      | cons => simp
    rw [extract_eq_dispatch hres sname, hdisp, htok, pyOr_some, hne]
    simp

/-- C4 counterexample: the sheet name `"HP Monitor Groups"` contains both
`HP` and `MONITOR`, the hash-suffixed matcher succeeds on the description,
yet the extractor returns nothing, because `"GROUPS"` contains the
higher-priority keyword `UPS`. -/
theorem C4_counterexample :
    containsTok (_clean_caps "HP Monitor Groups".toList) "HP".toList = true ∧
    containsTok (_clean_caps "HP Monitor Groups".toList) "MONITOR".toList = true ∧
    _find_hp_monitor_id "65P58AS#ABV – HP V24i G5".toList =
      some "65P58AS#ABV".toList ∧
    extract_product_id_for_row "HP Monitor Groups".toList
      [(PyKey.str "DESCRIPTION".toList,
        PyCell.str "65P58AS#ABV – HP V24i G5".toList)] = .ok Option.none :=
  ⟨by decide, by decide, by decide, by rfl⟩

theorem C4_witness :
    extract_product_id_for_row "HP Monitor List".toList
      [(PyKey.str "DESCRIPTION".toList,
        PyCell.str "65P58AS#ABV – HP V24i G5".toList)] =
      .ok (some "65P58AS#ABV".toList) :=
  (C4_hp_monitor_priority_amended "HP Monitor List".toList
    [(PyKey.str "DESCRIPTION".toList,
      PyCell.str "65P58AS#ABV – HP V24i G5".toList)]
    (PyCell.str "65P58AS#ABV – HP V24i G5".toList) PyCell.none PyCell.none
    (by rfl) (by decide) (by decide) (by decide) (by decide) (by decide)
    (by decide)).2 "65P58AS#ABV".toList (by decide)

/-- C8 (amended): for every sheet whose normalized name contains `MICROSOFT`
or `ASUS` and does not contain the higher-priority keyword `UPS`, the
extracted identifier is the composite generic matcher's result on the
description, else the part-number field unless it is (case-insensitively) the
literal `NEW`. -/
theorem C8_ms_asus_amended :
    ∀ (sname : List Char) (row : Row) (d p r : PyCell),
      resolveCells row = .ok (d, p, r) →
      (containsTok (_clean_caps sname) "MICROSOFT".toList ||
       containsTok (_clean_caps sname) "ASUS".toList) = true →
      containsTok (_clean_caps sname) "UPS".toList = false →
      extract_product_id_for_row sname row =
        .ok (pyOr (_generic_from_description (pyStrip (cellToStr d)))
          (if (!(pyStrip (cellToStr p)).isEmpty &&
               !(pyUpper (pyStrip (cellToStr p)) == "NEW".toList)) = true
           then some (pyStrip (cellToStr p)) else Option.none)) := by
  intro sname row d p r hres hms hups
  rw [extract_eq_dispatch hres sname, dispatch_ms_asus hms hups]

/-- C8 counterexample: the sheet name `"ASUS UPS"` contains `ASUS`, the
generic matcher succeeds on the description, yet the extractor returns
nothing, because the `UPS` rule takes priority and the reference field is
empty. -/
theorem C8_counterexample :
    containsTok (_clean_caps "ASUS UPS".toList) "ASUS".toList = true ∧
    _generic_from_description
      (pyStrip (cellToStr (PyCell.str "Laptop (82X700BTAX) 16GB".toList))) =
      some "82X700BTAX".toList ∧
    extract_product_id_for_row "ASUS UPS".toList
      [(PyKey.str "DESCRIPTION".toList,
        PyCell.str "Laptop (82X700BTAX) 16GB".toList)] = .ok Option.none :=
  ⟨by decide, by decide, by rfl⟩

theorem C8_witness :
    extract_product_id_for_row "ASUS Laptops".toList
      [(PyKey.str "DESCRIPTION".toList,
        PyCell.str "Laptop (82X700BTAX) 16GB".toList)] =
      .ok (pyOr (_generic_from_description
          (pyStrip (cellToStr (PyCell.str "Laptop (82X700BTAX) 16GB".toList))))
        (if (!(pyStrip (cellToStr PyCell.none)).isEmpty &&
             !(pyUpper (pyStrip (cellToStr PyCell.none)) == "NEW".toList)) = true
         then some (pyStrip (cellToStr PyCell.none)) else Option.none)) :=
  C8_ms_asus_amended "ASUS Laptops".toList
    [(PyKey.str "DESCRIPTION".toList,
      PyCell.str "Laptop (82X700BTAX) 16GB".toList)]
    (PyCell.str "Laptop (82X700BTAX) 16GB".toList) PyCell.none PyCell.none
    (by rfl) (by decide) (by decide)

end ExcelAuto
